import Mathlib

/- A shallow embedding of tools/gen_drivers_alloc/gen_drivers_alloc.py: the
template-marker rendering engine and the configuration pre-analysis pass.
Python strings are modelled as String, Python lists as List, dictionaries
with a fixed key set as structures, and the insertion-ordered buffers_size
dictionary as an association list in insertion order. File IO and the current
date are external: a template is passed as its list of lines, the date as a
parameter, and the print of an unknown marker is collected in a report list. -/

def MARKER : String := "@@marker:"

def FILENAME_MARKER : String := "filename"

def DATE_MARKER : String := "date"

def AUTHOR_MARKER : String := "author"

def INCLUDE_MARKER : String := "include"

def CONST_MARKER : String := "constants"

def IFNDEF_MARKER : String := "ifndef"

def DEFINE_MARKER : String := "define"

def FUNCTIONS_MARKER : String := "functions"

def DRIVER_ALLOC_TYPE : String := "DRIVER_ALLOC"

def DRIVER_ALLOC_TABLE_NAME : String := "DRIVERS_ALLOC"

def USART_DRIVER_NAME : String := "USART"

def GPIO_DRIVER_NAME : String := "GPIO"

def BUFFER_NAME_SUFFIX : String := "_BUFFER"

def BUFFER_SIZE_SUFFIX : String := "_BUFFER_SIZE"

/-- Splits a character list at every character satisfying p, keeping empty
segments, as Python str.split(sep) does for a one-character separator. -/
def splitPred (p : Char → Bool) : List Char → List (List Char)
  | [] => [[]]
  | c :: cs =>
    if p c then [] :: splitPred p cs
    else
      match splitPred p cs with
      | [] => [[c]]
      | w :: ws => (c :: w) :: ws

/-- Python text.split() with no argument: split on whitespace and drop the
empty segments. (Python also treats \x0b and \x0c as whitespace; template
lines contain neither.) -/
def pyWords (s : String) : List String :=
  ((splitPred Char.isWhitespace s.toList).filter (fun w => !w.isEmpty)).map
    (fun w => String.mk w)

/-- Python word.split with a colon separator, keeping empty segments. -/
def pySplitColon (s : String) : List String :=
  (splitPred (fun c => c == ':') s.toList).map (fun w => String.mk w)

/-- Does pat occur as a contiguous run inside the character list? -/
def containsSubAux (pat : List Char) : List Char → Bool
  | [] => pat.isEmpty
  | c :: cs => pat.isPrefixOf (c :: cs) || containsSubAux pat cs

/-- Python substring containment: pat in s. -/
def containsSub (s pat : String) : Bool :=
  containsSubAux pat.toList s.toList

/-- Python s.removeprefix(pre). -/
def removePre (pre s : String) : String :=
  if pre.toList.isPrefixOf s.toList then String.mk (s.toList.drop pre.toList.length)
  else s

/-- extract_marker from the source: index the whitespace-delimited words, keep
the indices of those containing the marker sentinel, and take split(":")[1] of
each such word. An indexed word contains MARKER and hence a colon, so index 1
always exists; getD supplies an unreachable default. -/
def extract_marker (text : String) : Option (List String) :=
  let split_text := pyWords text
  let markers_indexes :=
    (List.range split_text.length).filter
      (fun i => containsSub (split_text.getD i "") MARKER)
  if markers_indexes.length = 0 then none
  else
    some (markers_indexes.map
      (fun i => (pySplitColon (split_text.getD i "")).getD 1 ""))

def gen_includes (inc_list : List String) : List String :=
  inc_list.map (fun inc => "#include \"" ++ inc ++ "\"")

def gen_defines (defines : List (String × String)) : List String :=
  defines.map (fun d => "#define " ++ d.1 ++ " " ++ d.2)

def gen_struct_init (struct_type struct_name : String)
    (fields : List (String × String)) (is_const : Bool) : List String :=
  let const := if is_const then "const " else ""
  (const ++ struct_type ++ " " ++ struct_name ++ " = \x7b")
    :: fields.map (fun f => "    ." ++ f.1 ++ " = " ++ f.2 ++ ",")
    ++ ["\x7d;"]

/-- A driver's peripheral value in the configuration: either a plain string
identifier or the GPIO port/pin dictionary. -/
inductive Periph where
  | pstr (s : String)
  | pgpio (port pin : String)
deriving DecidableEq

structure Driver where
  name : String
  type : String
  direction : String
  peripheral : Periph
  it_enabled : Bool
deriving DecidableEq

/-- The peripheral field as the string the Python code concatenates or
substring-tests; the code only reaches those operations on string-valued
peripherals (a dictionary there raises in Python; modelled as ""). -/
def periphStr : Periph → String
  | .pstr s => s
  | .pgpio _ _ => ""

structure Buffer where
  name : String
  size : String
deriving DecidableEq

structure Analysis where
  includes_c : List String
  activations : List String
  init_list : List String
  buffers : List Buffer
  buffers_size : List (String × String)
deriving DecidableEq

structure InitSeq where
  driver : String
  sequence : List String
  it_enabled_sequence : Option (List String)
  includes : List String
  buffer_size : String
deriving DecidableEq

structure TargetFile where
  directory : String
  name : String
deriving DecidableEq

structure Config where
  drivers : List Driver
  init_sequence : List InitSeq
  includes_c : List String
  includes_h : List String
  target_c_file : TargetFile
deriving DecidableEq

/-- get_peripheral_handler from the source, returning the resolved expression
together with the struct-initializer lines it extends the caller's accumulator
with. The two cases where Python raises (a USART driver with a dictionary
peripheral, a GPIO driver with a string peripheral) are modelled as returning
("", []); nothing below exercises them. -/
def get_peripheral_handler (peripheral : Driver) : String × List String :=
  if peripheral.type = USART_DRIVER_NAME then
    ("&huart" ++ removePre USART_DRIVER_NAME (periphStr peripheral.peripheral), [])
  else if peripheral.type = GPIO_DRIVER_NAME then
    match peripheral.peripheral with
    | .pgpio port pin =>
      let gpio_strict_name := "GPIO_P" ++ port ++ pin
      ("&" ++ gpio_strict_name,
        gen_struct_init "GPIO_ALLOC" gpio_strict_name
          [("gpio", "GPIO" ++ port), ("pin", "GPIO_PIN_" ++ pin)] true)
    | .pstr _ => ("", [])
  else if peripheral.peripheral = Periph.pstr "None" then ("0", [])
  else ("", [])

/-- One row of the driver allocation table: the six peri_fields entries of
gen_drivers_alloc, with named positions. -/
structure Row where
  name : String
  type : String
  direction : String
  handler : String
  buffer : String
  index : Nat
deriving DecidableEq

def gen_table (table_type table_name : String) (fields : List Row)
    (is_const : Bool) : List String :=
  let const := if is_const then "const" else ""
  (const ++ " " ++ table_type ++ " " ++ table_name ++ "[] = \x7b")
    :: fields.map (fun f =>
        "    \x7b (uint8_t*)\"" ++ f.name ++ "\", " ++ f.type ++ ", " ++
          f.direction ++ ", (void*) " ++ f.handler ++ ", (void*) " ++
          f.buffer ++ ", " ++ toString f.index ++ " \x7d,")
    ++ ["\x7d;"]

/-- The buffer-matching test of gen_drivers_alloc's inner loop: the driver is
a USART one and its peripheral identifier occurs as a substring of the
analysis buffer's name. -/
def matchesBuffer (peripheral : Driver) (buffer : Buffer) : Bool :=
  (peripheral.type == "USART") &&
    containsSub buffer.name (periphStr peripheral.peripheral)

/-- The peri_buffer loop: starts at "0" and overwrites with each matching
analysis buffer, so the last match wins. -/
def periBuffer (analysis : Analysis) (peripheral : Driver) : String :=
  analysis.buffers.foldl
    (fun pb buffer => if matchesBuffer peripheral buffer then "&" ++ buffer.name else pb)
    "0"

def periRow (analysis : Analysis) (i : Nat) (peripheral : Driver) : Row :=
  { name := peripheral.name
    type := peripheral.type
    direction := peripheral.direction
    handler := (get_peripheral_handler peripheral).1
    buffer := periBuffer analysis peripheral
    index := i }

/-- The enumerate loop of gen_drivers_alloc, carrying the running index. -/
def periListFrom (analysis : Analysis) : Nat → List Driver → List Row
  | _, [] => []
  | i, d :: ds => periRow analysis i d :: periListFrom analysis (i + 1) ds

def periList (peri_config : List Driver) (analysis : Analysis) : List Row :=
  periListFrom analysis 0 peri_config

/-- The struct-initializer lines accumulated through get_peripheral_handler
across the loop of gen_drivers_alloc. -/
def handlerEmits (peri_config : List Driver) : List String :=
  peri_config.foldl (fun acc d => acc ++ (get_peripheral_handler d).2) []

def gen_drivers_alloc (peri_config : List Driver) (analysis : Analysis) :
    List String :=
  handlerEmits peri_config ++
    gen_table DRIVER_ALLOC_TYPE DRIVER_ALLOC_TABLE_NAME
      (periList peri_config analysis) true

/-- One init call with the three placeholder substitutions of gen_init_func. -/
def substInitCall (d : Driver) (init_call : String) : String :=
  ((init_call.replace "<drv_name>" (periphStr d.peripheral)).replace
      "<handler>" (get_peripheral_handler d).1).replace
    "<buffer>" (periphStr d.peripheral ++ BUFFER_NAME_SUFFIX)

def gen_init_func (config : Config) (analysis : Analysis) : List String :=
  (analysis.init_list.foldl (fun acc driver_init =>
    match config.init_sequence.find? (fun seq => seq.driver == driver_init) with
    | none => acc
    | some seq =>
      [some seq.sequence, seq.it_enabled_sequence].foldl (fun acc oseq =>
        match oseq with
        | none => acc
        | some sequence =>
          if driver_init = USART_DRIVER_NAME then
            config.drivers.foldl (fun acc d =>
              if d.type = USART_DRIVER_NAME then
                acc ++ ["    // " ++ periphStr d.peripheral ++ " initialization"]
                  ++ sequence.map (fun ic => "    " ++ substInitCall d ic)
                  ++ [""]
              else acc) acc
          else
            acc ++ ["    // " ++ driver_init ++ " initialization"]
              ++ sequence.map (fun ic => "    " ++ ic)
              ++ [""]) acc)
    ["void drivers_init()", "\x7b"]) ++ ["\x7d"]

def gen_handlers_func (config : Config) : List String :=
  config.drivers.foldl (fun acc drv =>
    if drv.it_enabled then
      acc ++ ["", "void " ++ periphStr drv.peripheral ++ "_it_handler()", "\x7b"]
        ++ (if drv.type = USART_DRIVER_NAME then
              ["    HAL_UART_IRQHandler(" ++ (get_peripheral_handler drv).1 ++ ");"]
            else [])
        ++ ["\x7d"]
    else acc) []

/-- A render's result: the generated lines, the unknown-marker reports the
source prints, and the configuration after the render (the source-file
include branch extends config.includes_c in place). -/
structure GenResult where
  lines : List String
  reports : List String
  cfg : Config
deriving DecidableEq

/-- One marker substitution of the dispatch chain in gen_c_code. -/
def expandOne (an : Analysis) (today : String) (header : Bool) (line : String)
    (cfg : Config) (marker : String) : GenResult :=
  let file_ext := if header then ".h" else ".c"
  if marker = FILENAME_MARKER then
    ⟨[line.replace (MARKER ++ marker) (cfg.target_c_file.name ++ file_ext)], [], cfg⟩
  else if marker = DATE_MARKER then
    ⟨[line.replace (MARKER ++ marker) today], [], cfg⟩
  else if marker = AUTHOR_MARKER then
    ⟨[line.replace (MARKER ++ marker) "Auto-generated by gen_drivers_alloc"], [], cfg⟩
  else if marker = INCLUDE_MARKER then
    if header then ⟨gen_includes cfg.includes_h, [], cfg⟩
    else
      let includes_list := cfg.includes_c ++ an.includes_c
      ⟨gen_includes includes_list, [], { cfg with includes_c := includes_list }⟩
  else if marker = CONST_MARKER then
    if header then
      ⟨("extern const " ++ DRIVER_ALLOC_TYPE ++ " " ++ DRIVER_ALLOC_TABLE_NAME ++ "[];")
          :: an.buffers.map (fun b => "extern RX_BUFFER " ++ b.name ++ ";"), [], cfg⟩
    else
      ⟨(an.buffers.foldl (fun acc b =>
            acc ++ ["uint8_t " ++ b.name ++ "_BUF[" ++ b.size ++ "];"]
              ++ gen_struct_init "RX_BUFFER" b.name
                  [("buffer", b.name ++ "_BUF"), ("size", "0")] false) [])
          ++ gen_drivers_alloc cfg.drivers an, [], cfg⟩
  else if marker = IFNDEF_MARKER then
    let g := cfg.target_c_file.name.toUpper ++ "_" ++ (removePre "." file_ext).toUpper
    ⟨["#ifndef " ++ g, "#define " ++ g], [], cfg⟩
  else if marker = DEFINE_MARKER then
    ⟨gen_defines [("DRIVERS_ALLOC_SIZE", toString cfg.drivers.length)]
        ++ an.activations.map (fun act => "#define " ++ act)
        ++ an.buffers_size.map (fun kv => "#define " ++ kv.1 ++ " " ++ kv.2), [], cfg⟩
  else if marker = FUNCTIONS_MARKER then
    if header then ⟨["void drivers_init();"], [], cfg⟩
    else ⟨gen_init_func cfg an ++ gen_handlers_func cfg, [], cfg⟩
  else
    ⟨[], ["Unknown marker: " ++ MARKER ++ marker], cfg⟩

/-- The per-line loop over the markers extract_marker found, left to right,
threading the configuration. -/
def expandMarkers (an : Analysis) (today : String) (header : Bool) (line : String) :
    Config → List String → GenResult
  | cfg, [] => ⟨[], [], cfg⟩
  | cfg, m :: ms =>
    let e := expandOne an today header line cfg m
    let r := expandMarkers an today header line e.cfg ms
    ⟨e.lines ++ r.lines, e.reports ++ r.reports, r.cfg⟩

/-- The main loop of gen_c_code over the template's lines. -/
def renderLines (an : Analysis) (today : String) (header : Bool) :
    Config → List String → GenResult
  | cfg, [] => ⟨[], [], cfg⟩
  | cfg, line :: rest =>
    match extract_marker line with
    | none =>
      let r := renderLines an today header cfg rest
      ⟨line :: r.lines, r.reports, r.cfg⟩
    | some markers =>
      let e := expandMarkers an today header line cfg markers
      let r := renderLines an today header e.cfg rest
      ⟨e.lines ++ r.lines, e.reports ++ r.reports, r.cfg⟩

/-- gen_c_code over an already-loaded template (file IO is external), with the
current-date string as a parameter. -/
def gen_c_code (template : List String) (config : Config) (analysis : Analysis)
    (today : String) (header : Bool) : GenResult :=
  renderLines analysis today header config template

/-- The text gen_c_code writes: every generated line, newline-terminated if it
was not already (the source tests line.endswith("\n"), here the last
character). -/
def writtenText (lines : List String) : String :=
  String.join (lines.map (fun l => if l.toList.getLast? = some '\n' then l else l ++ "\n"))

/-- Appends x unless already present: the "if x not in l: l.append(x)"
pattern of the pre-analysis. -/
def addOnce (l : List String) (x : String) : List String :=
  if x ∈ l then l else l ++ [x]

/-- One driver's step of the pre-analysis loop in the script's main block. -/
def preStep (init_sequence : List InitSeq) (pa : Analysis) (driver : Driver) :
    Analysis :=
  let includes1 :=
    if driver.type = USART_DRIVER_NAME then addOnce pa.includes_c "usart.h"
    else pa.includes_c
  let activations1 := addOnce pa.activations ("DRIVER_ACTIVATE_" ++ driver.type)
  let seen := driver.type ∈ pa.init_list
  let init_list1 := if seen then pa.init_list else pa.init_list ++ [driver.type]
  let includes2 :=
    if seen then includes1
    else
      init_sequence.foldl (fun inc init =>
        if init.driver = driver.type then init.includes.foldl addOnce inc else inc)
        includes1
  let bs :=
    init_sequence.foldl (fun (bs : List Buffer × List (String × String)) init =>
      if init.driver = driver.type ∧ driver.it_enabled then
        (bs.1 ++ [⟨periphStr driver.peripheral ++ BUFFER_NAME_SUFFIX,
                   init.driver ++ BUFFER_SIZE_SUFFIX⟩],
         if (bs.2.map Prod.fst).contains (init.driver ++ BUFFER_SIZE_SUFFIX) then bs.2
         else bs.2 ++ [(init.driver ++ BUFFER_SIZE_SUFFIX, init.buffer_size)])
      else bs)
      (pa.buffers, pa.buffers_size)
  { includes_c := includes2, activations := activations1, init_list := init_list1,
    buffers := bs.1, buffers_size := bs.2 }

/-- The pre-analysis pass: a single forward fold over the driver list from the
empty analysis record. -/
def preAnalysis (config : Config) : Analysis :=
  config.drivers.foldl (preStep config.init_sequence) ⟨[], [], [], [], []⟩

/-- Everything after the first occurrence of pat in the character list, when
pat occurs at all. -/
def afterSubAux (pat : List Char) : List Char → Option (List Char)
  | [] => if pat.isEmpty then some [] else none
  | c :: cs =>
    if pat.isPrefixOf (c :: cs) then some ((c :: cs).drop pat.length)
    else afterSubAux pat cs

/-- The marker scanner as the spec's words describe it (for comparison with
extract_marker): the kind of a marker word is everything after the first ':'
that follows the marker prefix within that word, i.e. the suffix of the word
after the first occurrence of "@@marker:". -/
def extractMarkerSpec (text : String) : Option (List String) :=
  let ms := (pyWords text).filter (fun w => containsSub w MARKER)
  if ms.isEmpty then none
  else some (ms.map (fun w =>
    ((afterSubAux MARKER.toList w.toList).map (fun l => String.mk l)).getD ""))

/-- firstSeenAux seen l keeps, in order, the first occurrence of each element
of l not already in seen. -/
def firstSeenAux : List String → List String → List String
  | _, [] => []
  | seen, t :: ts =>
    if t ∈ seen then firstSeenAux seen ts
    else t :: firstSeenAux (t :: seen) ts

/-- The first-seen ordering of a list: each element once, at the position of
its first occurrence. -/
def firstSeen (l : List String) : List String :=
  firstSeenAux [] l

/- Helper lemmas. -/

lemma periListFrom_length (a : Analysis) :
    ∀ (k : Nat) (ds : List Driver), (periListFrom a k ds).length = ds.length := by
  intro k ds
  induction ds generalizing k with
  | nil => simp [periListFrom]
  | cons d ds ih => simp [periListFrom, ih]

lemma periListFrom_getD (a : Analysis) (dR : Row) (dD : Driver) :
    ∀ (ds : List Driver) (k i : Nat), i < ds.length →
      (periListFrom a k ds).getD i dR = periRow a (k + i) (ds.getD i dD) := by
  intro ds
  induction ds with
  | nil => intro k i h; simp at h
  | cons d ds ih =>
    intro k i h
    cases i with
    | zero => simp [periListFrom]
    | succ n =>
      have hn : n < ds.length := by simpa using Nat.lt_of_succ_lt_succ h
      have := ih (k + 1) n hn
      simp only [periListFrom, List.getD_cons_succ, this]
      congr 1
      omega

lemma mem_addOnce (l : List String) (x y : String) :
    y ∈ addOnce l x ↔ y ∈ l ∨ y = x := by
  unfold addOnce
  by_cases h : x ∈ l
  · simp only [if_pos h]
    constructor
    · exact Or.inl
    · rintro (hy | rfl) <;> [exact hy; exact h]
  · simp [if_neg h]

lemma firstSeenAux_congr :
    ∀ (ts s₁ s₂ : List String), (∀ x, x ∈ s₁ ↔ x ∈ s₂) →
      firstSeenAux s₁ ts = firstSeenAux s₂ ts := by
  intro ts
  induction ts with
  | nil => intro _ _ _; rfl
  | cons t ts ih =>
    intro s₁ s₂ h
    by_cases ht : t ∈ s₁
    · have ht₂ : t ∈ s₂ := (h t).mp ht
      simp [firstSeenAux, ht, ht₂, ih s₁ s₂ h]
    · have ht₂ : t ∉ s₂ := fun hc => ht ((h t).mpr hc)
      simp only [firstSeenAux, if_neg ht, if_neg ht₂]
      congr 1
      exact ih (t :: s₁) (t :: s₂) (by intro x; simp [h x])

lemma foldl_addOnce_eq :
    ∀ (ts acc : List String), List.foldl addOnce acc ts = acc ++ firstSeenAux acc ts := by
  intro ts
  induction ts with
  | nil => intro acc; simp [firstSeenAux]
  | cons t ts ih =>
    intro acc
    by_cases h : t ∈ acc
    · simp [List.foldl_cons, addOnce, h, firstSeenAux, ih]
    · simp only [List.foldl_cons, addOnce, if_neg h, firstSeenAux]
      rw [ih (acc ++ [t])]
      rw [firstSeenAux_congr ts (acc ++ [t]) (t :: acc) (by intro x; simp [or_comm])]
      simp

lemma mem_firstSeenAux :
    ∀ (ts seen : List String) (x : String),
      x ∈ firstSeenAux seen ts ↔ (x ∈ ts ∧ x ∉ seen) := by
  intro ts
  induction ts with
  | nil => intro seen x; simp [firstSeenAux]
  | cons t ts ih =>
    intro seen x
    by_cases h : t ∈ seen
    · simp only [firstSeenAux, if_pos h, ih, List.mem_cons]
      constructor
      · rintro ⟨hx, hs⟩; exact ⟨Or.inr hx, hs⟩
      · rintro ⟨hx | hx, hs⟩
        · exact absurd (hx ▸ h) hs
        · exact ⟨hx, hs⟩
    · simp only [firstSeenAux, if_neg h, List.mem_cons, ih, not_or]
      constructor
      · rintro (rfl | ⟨hx, hne, hs⟩)
        · exact ⟨Or.inl rfl, h⟩
        · exact ⟨Or.inr hx, hs⟩
      · rintro ⟨rfl | hx, hs⟩
        · exact Or.inl rfl
        · rcases eq_or_ne x t with rfl | hxt
          · exact Or.inl rfl
          · exact Or.inr ⟨hx, hxt, hs⟩

lemma nodup_firstSeenAux :
    ∀ (ts seen : List String), (firstSeenAux seen ts).Nodup := by
  intro ts
  induction ts with
  | nil => intro seen; simp [firstSeenAux]
  | cons t ts ih =>
    intro seen
    by_cases h : t ∈ seen
    · simpa [firstSeenAux, h] using ih seen
    · simp only [firstSeenAux, if_neg h, List.nodup_cons]
      refine ⟨fun hc => ?_, ih (t :: seen)⟩
      exact ((mem_firstSeenAux ts (t :: seen) t).mp hc).2 (List.mem_cons_self t seen)

lemma preStep_init_list (s : List InitSeq) (pa : Analysis) (d : Driver) :
    (preStep s pa d).init_list = addOnce pa.init_list d.type := rfl

lemma foldl_preStep_init_list (s : List InitSeq) :
    ∀ (ds : List Driver) (pa : Analysis),
      (List.foldl (preStep s) pa ds).init_list
        = List.foldl addOnce pa.init_list (ds.map Driver.type) := by
  intro ds
  induction ds with
  | nil => intro pa; rfl
  | cons d ds ih =>
    intro pa
    simp only [List.foldl_cons, List.map_cons, ih, preStep_init_list]

/- C3: table size and row indexing. -/

/-- C3: for every driver list of length n, the generated driver allocation
table has exactly n rows (the rendered array literal has n + 2 lines: header,
n rows, footer), and row i is built from the i-th driver of the input list
with index field i. -/
theorem C3_table_rows (l : List Driver) (a : Analysis) :
    (periList l a).length = l.length ∧
    (gen_table DRIVER_ALLOC_TYPE DRIVER_ALLOC_TABLE_NAME (periList l a) true).length
      = l.length + 2 ∧
    ∀ i, i < l.length →
      ((periList l a).getD i ⟨"", "", "", "", "", 0⟩).index = i ∧
      (periList l a).getD i ⟨"", "", "", "", "", 0⟩
        = periRow a i (l.getD i ⟨"", "", "", Periph.pstr "", false⟩) := by
  refine ⟨periListFrom_length a 0 l, ?_, ?_⟩
  · simp [gen_table, periList, periListFrom_length]
  · intro i h
    have := periListFrom_getD a ⟨"", "", "", "", "", 0⟩ ⟨"", "", "", Periph.pstr "", false⟩ l 0 i h
    simp only [Nat.zero_add] at this
    exact ⟨by rw [periList, this, periRow], by rw [periList, this]⟩

/-- Witness for C3 at a concrete two-driver list. -/
theorem C3_table_rows_witness :
    1 < 2 ∧
    ((periList
        [⟨"u1", "USART", "IN", Periph.pstr "USART1", false⟩,
         ⟨"g1", "GPIO", "OUT", Periph.pgpio "A" "5", false⟩]
        ⟨[], [], [], [], []⟩).getD 1 ⟨"", "", "", "", "", 0⟩).index = 1 :=
  ⟨by decide,
   ((C3_table_rows
      [⟨"u1", "USART", "IN", Periph.pstr "USART1", false⟩,
       ⟨"g1", "GPIO", "OUT", Periph.pgpio "A" "5", false⟩]
      ⟨[], [], [], [], []⟩).2.2 1 (by decide)).1⟩

/- C4: the "no peripheral" sentinel. -/

/-- C4 counterexample: a USART-typed driver whose peripheral field is the
sentinel "None" does not resolve to "0" — the type checks come first, so it
resolves to "&huartNone". -/
theorem C4_counterexample :
    (⟨"u", "USART", "IN", Periph.pstr "None", false⟩ : Driver).peripheral
        = Periph.pstr "None" ∧
    (get_peripheral_handler ⟨"u", "USART", "IN", Periph.pstr "None", false⟩).1
        = "&huartNone" ∧
    (get_peripheral_handler ⟨"u", "USART", "IN", Periph.pstr "None", false⟩).1
        ≠ "0" := by
  refine ⟨rfl, rfl, by decide⟩

/-- C4 amended: for every driver whose type is neither USART nor GPIO and
whose peripheral field equals the sentinel "None", get_peripheral_handler
returns the null-pointer literal "0". -/
theorem C4_none_handler (d : Driver) (h1 : d.type ≠ USART_DRIVER_NAME)
    (h2 : d.type ≠ GPIO_DRIVER_NAME) (h3 : d.peripheral = Periph.pstr "None") :
    (get_peripheral_handler d).1 = "0" := by
  simp [get_peripheral_handler, h1, h2, h3]

/-- Witness for C4 at a concrete LED-typed driver. -/
theorem C4_none_handler_witness :
    (("LED" : String) ≠ USART_DRIVER_NAME ∧ ("LED" : String) ≠ GPIO_DRIVER_NAME) ∧
    (get_peripheral_handler ⟨"x", "LED", "OUT", Periph.pstr "None", false⟩).1 = "0" :=
  ⟨⟨by decide, by decide⟩,
   C4_none_handler ⟨"x", "LED", "OUT", Periph.pstr "None", false⟩
     (by decide) (by decide) rfl⟩

/- C8: first-seen ordering of init_list. -/

/-- C8: the pre-analysis init_list holds each driver type occurring in the
raw driver list exactly once (it is duplicate-free and covers exactly the
occurring types), in first-seen order (it equals firstSeen of the type
sequence, which keeps each element at its first occurrence); the interleaved
type sequence [A, B, A, C] yields ["A", "B", "C"]. -/
theorem C8_init_order (cfg : Config) :
    (preAnalysis cfg).init_list = firstSeen (cfg.drivers.map Driver.type) ∧
    (preAnalysis cfg).init_list.Nodup ∧
    (∀ t, t ∈ (preAnalysis cfg).init_list ↔ t ∈ cfg.drivers.map Driver.type) ∧
    (preAnalysis ⟨[⟨"d1", "A", "", Periph.pstr "", false⟩,
                   ⟨"d2", "B", "", Periph.pstr "", false⟩,
                   ⟨"d3", "A", "", Periph.pstr "", false⟩,
                   ⟨"d4", "C", "", Periph.pstr "", false⟩],
                  [], [], [], ⟨"", ""⟩⟩).init_list = ["A", "B", "C"] := by
  have key : (preAnalysis cfg).init_list = firstSeen (cfg.drivers.map Driver.type) := by
    rw [preAnalysis, foldl_preStep_init_list, foldl_addOnce_eq]
    rfl
  refine ⟨key, ?_, ?_, by decide⟩
  · rw [key]; exact nodup_firstSeenAux _ []
  · intro t
    rw [key, firstSeen, mem_firstSeenAux]
    simp

/- C9: GPIO handler resolution for port A pin 5. -/

/-- C9: a GPIO driver with port "A" and pin "5" yields the constant name
GPIO_PA5: the returned expression is "&GPIO_PA5" and the emitted accumulator
lines are a const struct initializer with .gpio = GPIOA and .pin =
GPIO_PIN_5 (handlerEmits shows the lines appended to the accumulator of
gen_drivers_alloc). -/
theorem C9_gpio_handler :
    get_peripheral_handler ⟨"led", "GPIO", "OUT", Periph.pgpio "A" "5", false⟩
      = ("&GPIO_PA5",
         ["const GPIO_ALLOC GPIO_PA5 = \x7b",
          "    .gpio = GPIOA,",
          "    .pin = GPIO_PIN_5,",
          "\x7d;"]) ∧
    handlerEmits [⟨"led", "GPIO", "OUT", Periph.pgpio "A" "5", false⟩]
      = ["const GPIO_ALLOC GPIO_PA5 = \x7b",
         "    .gpio = GPIOA,",
         "    .pin = GPIO_PIN_5,",
         "\x7d;"] := by
  exact ⟨rfl, rfl⟩

/- C7: the buffer field of a table row. -/

lemma foldl_lastMatch {α β : Type} (p : α → Bool) (f : α → β) :
    ∀ (l : List α) (init : β),
      l.foldl (fun pb b => if p b then f b else pb) init
        = (((l.filter p).getLast?).map f).getD init := by
  intro l
  induction l with
  | nil => intro init; simp
  | cons b l ih =>
    intro init
    by_cases h : p b
    · rw [List.foldl_cons, if_pos h, ih, List.filter_cons_of_pos h]
      cases hl : l.filter p with
      | nil => simp [hl]
      | cons y ys =>
        rw [List.getLast?_cons_cons]
        obtain ⟨z, hz⟩ := Option.isSome_iff_exists.mp
          (List.getLast?_isSome.mpr (List.cons_ne_nil y ys))
        simp [hz]
    · rw [List.foldl_cons, if_neg h, ih, List.filter_cons_of_neg h]

lemma periBuffer_eq (a : Analysis) (d : Driver) :
    periBuffer a d
      = (((a.buffers.filter (matchesBuffer d)).getLast?).map
          (fun b => "&" ++ b.name)).getD "0" :=
  foldl_lastMatch (matchesBuffer d) (fun b => "&" ++ b.name) a.buffers "0"

/-- C7 amended: the buffer field of row i is "&" followed by the name of the
LAST analysis buffer whose name contains the i-th driver's peripheral
identifier as a substring, provided that driver's type is USART
(matchesBuffer), and the null-pointer literal "0" when no analysis buffer
matches; name equality with peripheral + "_BUFFER" is not required. -/
theorem C7_buffer_field (l : List Driver) (a : Analysis) (i : Nat)
    (h : i < l.length) :
    ((periList l a).getD i ⟨"", "", "", "", "", 0⟩).buffer
      = (((a.buffers.filter
            (matchesBuffer (l.getD i ⟨"", "", "", Periph.pstr "", false⟩))).getLast?).map
          (fun b => "&" ++ b.name)).getD "0" := by
  rw [periList,
    periListFrom_getD a ⟨"", "", "", "", "", 0⟩ ⟨"", "", "", Periph.pstr "", false⟩ l 0 i h]
  exact periBuffer_eq a (l.getD i ⟨"", "", "", Periph.pstr "", false⟩)

/-- The configuration exhibiting C7's substring over-matching: USART1 is a
substring of USART12_BUFFER, the buffer registered for the other driver. -/
def cfgSubstr : Config :=
  ⟨[⟨"u1", "USART", "IN", Periph.pstr "USART1", false⟩,
    ⟨"u2", "USART", "IN", Periph.pstr "USART12", true⟩],
   [⟨"USART", ["x"], none, [], "64"⟩], [], [], ⟨"", ""⟩⟩

/-- C7 counterexample: the analysis registered no buffer for driver u1
(no buffer named "USART1_BUFFER" — the only one is "USART12_BUFFER", owned
by u2), yet u1's table row carries "&USART12_BUFFER" instead of "0",
because the code matches by substring containment rather than by name
equality with peripheral + "_BUFFER". -/
theorem C7_counterexample :
    (preAnalysis cfgSubstr).buffers.map Buffer.name = ["USART12_BUFFER"] ∧
    (∀ b ∈ (preAnalysis cfgSubstr).buffers,
      b.name ≠ periphStr ((cfgSubstr.drivers.getD 0
        ⟨"", "", "", Periph.pstr "", false⟩).peripheral) ++ BUFFER_NAME_SUFFIX) ∧
    ((periList cfgSubstr.drivers (preAnalysis cfgSubstr)).getD 0
        ⟨"", "", "", "", "", 0⟩).buffer = "&USART12_BUFFER" := by
  refine ⟨rfl, by decide, rfl⟩

/-- Witness for C7 at the same configuration, row 0. -/
theorem C7_buffer_field_witness :
    0 < cfgSubstr.drivers.length ∧
    ((periList cfgSubstr.drivers (preAnalysis cfgSubstr)).getD 0
        ⟨"", "", "", "", "", 0⟩).buffer
      = ((((preAnalysis cfgSubstr).buffers.filter
            (matchesBuffer (cfgSubstr.drivers.getD 0
              ⟨"", "", "", Periph.pstr "", false⟩))).getLast?).map
          (fun b => "&" ++ b.name)).getD "0" :=
  ⟨by decide, C7_buffer_field cfgSubstr.drivers (preAnalysis cfgSubstr) 0 (by decide)⟩

/- C5: the marker scanner. -/

lemma range_filter_map_getD {α β : Type} (p : α → Bool) (f : α → β) (d : α) :
    ∀ (l : List α),
      ((List.range l.length).filter (fun i => p (l.getD i d))).map
          (fun i => f (l.getD i d))
        = (l.filter p).map f := by
  intro l
  induction l with
  | nil => simp
  | cons a l ih =>
    simp only [List.length_cons, List.range_succ_eq_map, List.filter_cons,
      List.getD_cons_zero]
    by_cases h : p a
    · simp only [if_pos h, List.map_cons, List.getD_cons_zero]
      congr 1
      rw [List.filter_map, List.map_map]
      rw [show ((fun i => p ((a :: l).getD i d)) ∘ Nat.succ)
            = (fun i => p (l.getD i d)) from rfl]
      rw [show ((fun i => f ((a :: l).getD i d)) ∘ Nat.succ)
            = (fun i => f (l.getD i d)) from funext fun i => rfl]
      exact ih
    · simp only [if_neg h]
      rw [List.filter_map, List.map_map]
      rw [show ((fun i => p ((a :: l).getD i d)) ∘ Nat.succ)
            = (fun i => p (l.getD i d)) from rfl]
      rw [show ((fun i => f ((a :: l).getD i d)) ∘ Nat.succ)
            = (fun i => f (l.getD i d)) from funext fun i => rfl]
      exact ih

/-- C5 amended: extract_marker returns none exactly when no
whitespace-delimited word of the line contains the marker prefix; otherwise
it returns, in left-to-right order, for each word containing the prefix the
SECOND colon-separated segment of that word (the text between the word's
first and second ':'), not everything after the first ':' following the
prefix. -/
theorem C5_marker_kinds (text : String) :
    (extract_marker text = none
      ↔ ∀ w ∈ pyWords text, ¬ containsSub w MARKER = true) ∧
    extract_marker text
      = (if ((pyWords text).filter (fun w => containsSub w MARKER)).isEmpty
         then none
         else some (((pyWords text).filter (fun w => containsSub w MARKER)).map
            (fun w => (pySplitColon w).getD 1 ""))) := by
  have key := range_filter_map_getD (fun w => containsSub w MARKER)
    (fun w => (pySplitColon w).getD 1 "") "" (pyWords text)
  have hlen : ((List.range (pyWords text).length).filter
        (fun i => containsSub ((pyWords text).getD i "") MARKER)).length
      = ((pyWords text).filter (fun w => containsSub w MARKER)).length := by
    have := congrArg List.length key
    simpa using this
  constructor
  · rw [extract_marker]
    by_cases h : ((List.range (pyWords text).length).filter
        (fun i => containsSub ((pyWords text).getD i "") MARKER)).length = 0
    · simp only [if_pos h, true_iff]
      rw [hlen] at h
      have hnil := List.length_eq_zero.mp h
      intro w hw hc
      exact List.filter_eq_nil_iff.mp hnil w hw hc
    · simp only [if_neg h]
      constructor
      · intro hc; exact absurd hc (by simp)
      · intro hall
        exfalso
        apply h
        rw [hlen]
        exact List.length_eq_zero.mpr (List.filter_eq_nil_iff.mpr hall)
  · rw [extract_marker]
    by_cases h : ((List.range (pyWords text).length).filter
        (fun i => containsSub ((pyWords text).getD i "") MARKER)).length = 0
    · rw [if_pos h]
      rw [hlen] at h
      rw [if_pos (by simpa [List.isEmpty_iff_length_eq_zero] using h)]
    · rw [if_neg h]
      rw [hlen] at h
      rw [if_neg (by simpa [List.isEmpty_iff_length_eq_zero] using h)]
      exact congrArg some key

/-- C5 counterexample: in the word "@@marker:a:b" the code's kind is the
second colon-segment "a", while everything after the first ':' following the
prefix is "a:b". -/
theorem C5_counterexample :
    extract_marker "@@marker:a:b" = some ["a"] ∧
    extractMarkerSpec "@@marker:a:b" = some ["a:b"] ∧
    extract_marker "@@marker:a:b" ≠ extractMarkerSpec "@@marker:a:b" := by
  refine ⟨rfl, rfl, by decide⟩

/- Render-engine structural lemmas. -/

lemma renderLines_cons_none (an : Analysis) (today : String) (header : Bool)
    (cfg : Config) (line : String) (rest : List String)
    (hm : extract_marker line = none) :
    renderLines an today header cfg (line :: rest)
      = ⟨line :: (renderLines an today header cfg rest).lines,
         (renderLines an today header cfg rest).reports,
         (renderLines an today header cfg rest).cfg⟩ := by
  simp [renderLines, hm]

lemma renderLines_cons_some (an : Analysis) (today : String) (header : Bool)
    (cfg : Config) (line : String) (rest : List String) (ms : List String)
    (hm : extract_marker line = some ms) :
    renderLines an today header cfg (line :: rest)
      = ⟨(expandMarkers an today header line cfg ms).lines
            ++ (renderLines an today header
                  (expandMarkers an today header line cfg ms).cfg rest).lines,
         (expandMarkers an today header line cfg ms).reports
            ++ (renderLines an today header
                  (expandMarkers an today header line cfg ms).cfg rest).reports,
         (renderLines an today header
            (expandMarkers an today header line cfg ms).cfg rest).cfg⟩ := by
  simp [renderLines, hm]

lemma expandOne_cfg (an : Analysis) (today : String) (header : Bool)
    (line : String) (cfg : Config) (m : String) :
    (expandOne an today header line cfg m).cfg
      = { cfg with includes_c :=
            cfg.includes_c ++
              (if m = INCLUDE_MARKER ∧ header = false then an.includes_c else []) } := by
  by_cases hm : m = INCLUDE_MARKER
  · subst hm
    cases header with
    | false =>
      simp [expandOne, FILENAME_MARKER, DATE_MARKER, AUTHOR_MARKER, INCLUDE_MARKER]
    | true =>
      simp [expandOne, FILENAME_MARKER, DATE_MARKER, AUTHOR_MARKER, INCLUDE_MARKER]
  · have hr : (if m = INCLUDE_MARKER ∧ header = false then an.includes_c else []) = [] := by
      simp [hm]
    rw [hr, List.append_nil]
    show (expandOne an today header line cfg m).cfg = cfg
    simp only [expandOne]
    split_ifs <;> simp_all

lemma expandMarkers_cfg (an : Analysis) (today : String) (header : Bool)
    (line : String) :
    ∀ (ms : List String) (cfg : Config), ∃ X,
      (expandMarkers an today header line cfg ms).cfg
          = { cfg with includes_c := cfg.includes_c ++ X } ∧
      ((header = false ∧ INCLUDE_MARKER ∈ ms ∧ an.includes_c ≠ []) → X ≠ []) := by
  intro ms
  induction ms with
  | nil =>
    intro cfg
    exact ⟨[], by simp [expandMarkers], by simp⟩
  | cons m ms ih =>
    intro cfg
    obtain ⟨X1, hX1, hne1⟩ := ih (expandOne an today header line cfg m).cfg
    refine ⟨(if m = INCLUDE_MARKER ∧ header = false then an.includes_c else []) ++ X1,
      ?_, ?_⟩
    · have step : (expandMarkers an today header line cfg (m :: ms)).cfg
          = (expandMarkers an today header line
              (expandOne an today header line cfg m).cfg ms).cfg := rfl
      rw [step, hX1, expandOne_cfg]
      simp
    · rintro ⟨hh, hmem, han⟩
      rcases List.mem_cons.mp hmem with rfl | hmem'
      · simp [hh, han]
      · have := hne1 ⟨hh, hmem', han⟩
        simp [this]

lemma renderLines_cfg (an : Analysis) (today : String) (header : Bool) :
    ∀ (tmpl : List String) (cfg : Config), ∃ X,
      (renderLines an today header cfg tmpl).cfg
          = { cfg with includes_c := cfg.includes_c ++ X } ∧
      ((header = false ∧ an.includes_c ≠ [] ∧
          ∃ line ∈ tmpl, ∃ ms, extract_marker line = some ms ∧ INCLUDE_MARKER ∈ ms)
        → X ≠ []) := by
  intro tmpl
  induction tmpl with
  | nil =>
    intro cfg
    exact ⟨[], by simp [renderLines], by simp⟩
  | cons line rest ih =>
    intro cfg
    cases hm : extract_marker line with
    | none =>
      obtain ⟨X, hX, hne⟩ := ih cfg
      refine ⟨X, ?_, ?_⟩
      · rw [renderLines_cons_none an today header cfg line rest hm]
        exact hX
      · rintro ⟨hh, han, l', hl', ms', hms', hmem⟩
        rcases List.mem_cons.mp hl' with rfl | htail
        · rw [hm] at hms'; exact absurd hms' (by simp)
        · exact hne ⟨hh, han, l', htail, ms', hms', hmem⟩
    | some ms =>
      obtain ⟨Y, hY, hneY⟩ := expandMarkers_cfg an today header line ms cfg
      obtain ⟨X, hX, hneX⟩ := ih (expandMarkers an today header line cfg ms).cfg
      refine ⟨Y ++ X, ?_, ?_⟩
      · rw [renderLines_cons_some an today header cfg line rest ms hm]
        dsimp only
        rw [hX, hY]
        simp
      · rintro ⟨hh, han, l', hl', ms', hms', hmem⟩
        rcases List.mem_cons.mp hl' with rfl | htail
        · rw [hm] at hms'
          have hms'' : ms' = ms := by injection hms'.symm
          subst hms''
          have := hneY ⟨hh, hmem, han⟩
          simp [this]
        · have := hneX ⟨hh, han, l', htail, ms', hms', hmem⟩
          simp [this]

lemma expandOne_cfg_of (an : Analysis) (today : String) (header : Bool)
    (line : String) (cfg : Config) (m : String)
    (h : header = true ∨ an.includes_c = []) :
    (expandOne an today header line cfg m).cfg = cfg := by
  rw [expandOne_cfg]
  rcases h with h | h
  · subst h; simp
  · rw [h]; simp

lemma expandMarkers_cfg_of (an : Analysis) (today : String) (header : Bool)
    (line : String) (h : header = true ∨ an.includes_c = []) :
    ∀ (ms : List String) (cfg : Config),
      (expandMarkers an today header line cfg ms).cfg = cfg := by
  intro ms
  induction ms with
  | nil => intro cfg; rfl
  | cons m ms ih =>
    intro cfg
    have step : (expandMarkers an today header line cfg (m :: ms)).cfg
        = (expandMarkers an today header line
            (expandOne an today header line cfg m).cfg ms).cfg := rfl
    rw [step, expandOne_cfg_of an today header line cfg m h, ih cfg]

lemma renderLines_cfg_of (an : Analysis) (today : String) (header : Bool)
    (h : header = true ∨ an.includes_c = []) :
    ∀ (tmpl : List String) (cfg : Config),
      (renderLines an today header cfg tmpl).cfg = cfg := by
  intro tmpl
  induction tmpl with
  | nil => intro cfg; rfl
  | cons line rest ih =>
    intro cfg
    cases hm : extract_marker line with
    | none =>
      rw [renderLines_cons_none an today header cfg line rest hm]
      exact ih cfg
    | some ms =>
      rw [renderLines_cons_some an today header cfg line rest ms hm]
      dsimp only
      rw [expandMarkers_cfg_of an today header line h ms cfg, ih cfg]

/- Example configurations used by witnesses and counterexamples. -/

def cfgEmpty : Config := ⟨[], [], [], [], ⟨"", ""⟩⟩

def anEmpty : Analysis := ⟨[], [], [], [], []⟩

def cfgBase : Config := ⟨[], [], ["base.h"], [], ⟨"", ""⟩⟩

def anUsart : Analysis := ⟨["usart.h"], [], [], [], []⟩

/- C1: unknown marker kinds. -/

/-- The fixed marker vocabulary of the dispatch chain. -/
def knownMarkers : List String :=
  [FILENAME_MARKER, DATE_MARKER, AUTHOR_MARKER, INCLUDE_MARKER, CONST_MARKER,
   IFNDEF_MARKER, DEFINE_MARKER, FUNCTIONS_MARKER]

lemma expandOne_unknown (an : Analysis) (today : String) (header : Bool)
    (line : String) (cfg : Config) (m : String) (h : m ∉ knownMarkers) :
    expandOne an today header line cfg m
      = ⟨[], ["Unknown marker: " ++ MARKER ++ m], cfg⟩ := by
  obtain ⟨h1, h2, h3, h4, h5, h6, h7, h8⟩ := by
    simpa [knownMarkers, not_or] using h
  simp [expandOne, h1, h2, h3, h4, h5, h6, h7, h8]

lemma expandMarkers_unknown (an : Analysis) (today : String) (header : Bool)
    (line : String) :
    ∀ (ms : List String) (cfg : Config), (∀ m ∈ ms, m ∉ knownMarkers) →
      expandMarkers an today header line cfg ms
        = ⟨[], ms.map (fun m => "Unknown marker: " ++ MARKER ++ m), cfg⟩ := by
  intro ms
  induction ms with
  | nil => intro cfg _; rfl
  | cons m ms ih =>
    intro cfg h
    have hm := h m (List.mem_cons_self m ms)
    have e1 := expandOne_unknown an today header line cfg m hm
    have e2 := ih cfg (fun x hx => h x (List.mem_cons_of_mem m hx))
    show (⟨(expandOne an today header line cfg m).lines
            ++ (expandMarkers an today header line
                  (expandOne an today header line cfg m).cfg ms).lines,
          (expandOne an today header line cfg m).reports
            ++ (expandMarkers an today header line
                  (expandOne an today header line cfg m).cfg ms).reports,
          (expandMarkers an today header line
            (expandOne an today header line cfg m).cfg ms).cfg⟩ : GenResult) = _
    rw [e1]
    dsimp only
    rw [e2]
    simp

/-- C1 amended: a template line all of whose marker kinds lie outside the
fixed set \x7bfilename, date, author, include, constants, ifndef, define,
functions\x7d contributes one "Unknown marker" report per marker, is DROPPED
from the output (contrary to the claim, the line is not appended), leaves the
configuration unchanged, and processing continues with the remaining lines. -/
theorem C1_unknown_marker (an : Analysis) (today : String) (header : Bool)
    (line : String) (ms : List String) (rest : List String) (cfg : Config)
    (h1 : extract_marker line = some ms) (h2 : ∀ m ∈ ms, m ∉ knownMarkers) :
    gen_c_code (line :: rest) cfg an today header
      = ⟨(gen_c_code rest cfg an today header).lines,
         ms.map (fun m => "Unknown marker: " ++ MARKER ++ m)
           ++ (gen_c_code rest cfg an today header).reports,
         (gen_c_code rest cfg an today header).cfg⟩ := by
  show renderLines an today header cfg (line :: rest) = _
  rw [renderLines_cons_some an today header cfg line rest ms h1,
    expandMarkers_unknown an today header line ms cfg h2]
  rfl

/-- Witness for C1: a line holding only the unknown marker kind "weird" is
reported and dropped while the following line is still processed. -/
theorem C1_unknown_marker_witness :
    extract_marker "@@marker:weird" = some ["weird"] ∧
    gen_c_code ["@@marker:weird", "tail"] cfgEmpty anEmpty "01-01-2020" false
      = ⟨["tail"], ["Unknown marker: @@marker:weird"], cfgEmpty⟩ :=
  ⟨rfl, by
    rw [C1_unknown_marker anEmpty "01-01-2020" false "@@marker:weird" ["weird"]
      ["tail"] cfgEmpty rfl (by decide)]
    rfl⟩

/-- C1 counterexample: the claim says an unknown-marker line is appended to
the output without substitution; in fact the rendered output of
["keep", "@@marker:weird", "tail"] is ["keep", "tail"] — the line is gone,
though it was reported and processing continued. -/
theorem C1_counterexample :
    (gen_c_code ["keep", "@@marker:weird", "tail"] cfgEmpty anEmpty
        "01-01-2020" false).lines = ["keep", "tail"] ∧
    "@@marker:weird" ∉ (gen_c_code ["keep", "@@marker:weird", "tail"] cfgEmpty
        anEmpty "01-01-2020" false).lines ∧
    (gen_c_code ["keep", "@@marker:weird", "tail"] cfgEmpty anEmpty
        "01-01-2020" false).reports = ["Unknown marker: @@marker:weird"] := by
  refine ⟨rfl, by decide, rfl⟩

/- C2: idempotence of rendering. -/

/-- C2 amended: rendering is idempotent for every header render and for every
render whose analysis include list is empty — there the render leaves the
configuration unchanged, so rendering the same template again (date held
fixed) yields byte-identical output text; a SOURCE render with an include
marker and non-empty analysis includes falsifies the original claim because
it appends the analysis includes to the configuration's includes_c in place
(see the counterexample). -/
theorem C2_render_idempotent (template : List String) (cfg : Config)
    (an : Analysis) (today : String) (header : Bool)
    (h : header = true ∨ an.includes_c = []) :
    (gen_c_code template cfg an today header).cfg = cfg ∧
    writtenText (gen_c_code template
        (gen_c_code template cfg an today header).cfg an today header).lines
      = writtenText (gen_c_code template cfg an today header).lines := by
  have hc : (gen_c_code template cfg an today header).cfg = cfg :=
    renderLines_cfg_of an today header h template cfg
  exact ⟨hc, by rw [hc]⟩

/-- Witness for C2 at a concrete header render. -/
theorem C2_render_idempotent_witness :
    ((true : Bool) = true ∨ anUsart.includes_c = []) ∧
    writtenText (gen_c_code ["@@marker:include"]
        (gen_c_code ["@@marker:include"] cfgBase anUsart "01-01-2020" true).cfg
        anUsart "01-01-2020" true).lines
      = writtenText (gen_c_code ["@@marker:include"] cfgBase anUsart
          "01-01-2020" true).lines :=
  ⟨Or.inl rfl,
   (C2_render_idempotent ["@@marker:include"] cfgBase anUsart "01-01-2020" true
      (Or.inl rfl)).2⟩

/-- C2 counterexample: rendering the source template ["@@marker:include"]
twice in sequence against the same configuration object is NOT byte-identical
— the first render appends the analysis includes to includes_c in place, so
the second render emits the include twice. -/
theorem C2_counterexample :
    (gen_c_code ["@@marker:include"] cfgBase anUsart "01-01-2020" false).cfg.includes_c
        = ["base.h", "usart.h"] ∧
    writtenText (gen_c_code ["@@marker:include"]
        (gen_c_code ["@@marker:include"] cfgBase anUsart "01-01-2020" false).cfg
        anUsart "01-01-2020" false).lines
      ≠ writtenText (gen_c_code ["@@marker:include"] cfgBase anUsart
          "01-01-2020" false).lines := by
  refine ⟨rfl, by decide⟩

/- C6: the define marker. -/

/-- C6 amended: the define-marker expansion does not depend on the header
flag: for header and source alike it is the DRIVERS_ALLOC_SIZE macro (valued
at the number of drivers), then one activation macro per entry of the
analysis activations, then one macro per entry of the analysis buffer-size
table — so buffer-size macros are also emitted when rendering the header
whenever the buffer-size table is non-empty. -/
theorem C6_define_expansion (cfg : Config) (an : Analysis) (today : String) :
    (gen_c_code ["@@marker:define"] cfg an today true).lines
      = (gen_c_code ["@@marker:define"] cfg an today false).lines ∧
    (gen_c_code ["@@marker:define"] cfg an today true).lines
      = gen_defines [("DRIVERS_ALLOC_SIZE", toString cfg.drivers.length)]
          ++ an.activations.map (fun act => "#define " ++ act)
          ++ an.buffers_size.map (fun kv => "#define " ++ kv.1 ++ " " ++ kv.2) := by
  have hm : extract_marker "@@marker:define" = some [DEFINE_MARKER] := rfl
  have expand : ∀ hdr : Bool,
      (gen_c_code ["@@marker:define"] cfg an today hdr).lines
        = gen_defines [("DRIVERS_ALLOC_SIZE", toString cfg.drivers.length)]
            ++ an.activations.map (fun act => "#define " ++ act)
            ++ an.buffers_size.map (fun kv => "#define " ++ kv.1 ++ " " ++ kv.2) := by
    intro hdr
    rw [gen_c_code, renderLines_cons_some _ _ _ _ _ _ _ hm]
    simp [expandMarkers, expandOne, renderLines, FILENAME_MARKER, DATE_MARKER,
      AUTHOR_MARKER, INCLUDE_MARKER, CONST_MARKER, IFNDEF_MARKER,
      DEFINE_MARKER, FUNCTIONS_MARKER]
  exact ⟨(expand true).trans (expand false).symm, expand true⟩

/-- The configuration for C6's counterexample: one interrupt-enabled USART
driver whose pre-analysis registers the buffer-size symbol
USART_BUFFER_SIZE = 64. -/
def cfgC6 : Config :=
  ⟨[⟨"u", "USART", "IN", Periph.pstr "USART1", true⟩],
   [⟨"USART", ["x"], none, [], "64"⟩], [], [], ⟨"", "drv"⟩⟩

/-- C6 counterexample: rendering the HEADER with analysis coming from the
pre-analysis of cfgC6 expands the define marker to the size macro, the
activation macro AND the buffer-size macro — the claim says no buffer-size
macro is emitted for the header. -/
theorem C6_counterexample :
    (gen_c_code ["@@marker:define"] cfgC6 (preAnalysis cfgC6)
        "01-01-2020" true).lines
      = ["#define DRIVERS_ALLOC_SIZE 1", "#define DRIVER_ACTIVATE_USART",
         "#define USART_BUFFER_SIZE 64"] ∧
    "#define USART_BUFFER_SIZE 64"
      ∈ (gen_c_code ["@@marker:define"] cfgC6 (preAnalysis cfgC6)
          "01-01-2020" true).lines := by
  refine ⟨rfl, by decide⟩

/- C10: the source render's frame effect on the configuration. -/

/-- C10: a source render (header = false) of a template containing an
include-marker line, with non-empty analysis includes, changes the
configuration's includes_c field (the analysis includes are appended in
place) while every other configuration field is unchanged. -/
theorem C10_source_render_mutation (template : List String) (cfg : Config)
    (an : Analysis) (today : String)
    (h_an : an.includes_c ≠ [])
    (h_line : ∃ line ∈ template, ∃ ms,
        extract_marker line = some ms ∧ INCLUDE_MARKER ∈ ms) :
    (gen_c_code template cfg an today false).cfg.includes_c ≠ cfg.includes_c ∧
    (gen_c_code template cfg an today false).cfg.drivers = cfg.drivers ∧
    (gen_c_code template cfg an today false).cfg.init_sequence = cfg.init_sequence ∧
    (gen_c_code template cfg an today false).cfg.includes_h = cfg.includes_h ∧
    (gen_c_code template cfg an today false).cfg.target_c_file = cfg.target_c_file := by
  obtain ⟨X, hX, hne⟩ := renderLines_cfg an today false template cfg
  have hXne : X ≠ [] := hne ⟨rfl, h_an, h_line⟩
  simp only [gen_c_code]
  rw [hX]
  refine ⟨?_, rfl, rfl, rfl, rfl⟩
  intro hcontr
  have hlen := congrArg List.length hcontr
  simp [List.length_append] at hlen
  exact hXne hlen

/-- Witness for C10 at a concrete source render of an include-marker
template. -/
theorem C10_source_render_mutation_witness :
    (anUsart.includes_c ≠ [] ∧
      extract_marker "@@marker:include" = some ["include"] ∧
      INCLUDE_MARKER ∈ ["include"]) ∧
    (gen_c_code ["@@marker:include"] cfgBase anUsart "01-01-2020" false).cfg.includes_c
      ≠ cfgBase.includes_c :=
  ⟨⟨by decide, rfl, by decide⟩,
   (C10_source_render_mutation ["@@marker:include"] cfgBase anUsart "01-01-2020"
      (by decide)
      ⟨"@@marker:include", by decide, ["include"], rfl, by decide⟩).1⟩
